import Mathlib

/-!
Shallow embedding of the secret-message-decoder Go program.

The program (src: `main.go` / the companion full source file) fetches an
HTML document, extracts (x, character, y) triples from the first table,
and renders them as a 2D grid on stdout.

Modelling conventions:
* Go `string` is modelled as `List Char` (`Str`).
* Go `int` is modelled as `Int` (arithmetic here never overflows 64 bits
  on the inputs of interest and the claims are not about overflow).
* A Go slice-index panic (out-of-range write `grid[c.Y][c.X]`) is
  modelled by returning `none` from the grid-writing functions.
* `log.Fatal`/`log.Fatalf` (print message, exit with non-zero status)
  is modelled as `Except.error msg`.
* The goquery document is modelled as the list of its tables, each table
  being the list of its rows, each row the list of the text contents of
  its `td` cells (already the only data the extractor reads).
-/

/-- Go strings, modelled as lists of characters. -/
abbrev Str := List Char

/-- The `Cell` struct from the source: a character to be drawn at a specific (X, Y)
coordinate.  `X`, `Y` are Go `int`; `C` is the character payload string. -/
structure Cell where
  X : Int
  Y : Int
  C : Str
deriving Repr, DecidableEq

/-- The character set of Go's `unicode.IsSpace` restricted to Latin-1, as
used by `strings.TrimSpace`. -/
def goIsSpace (c : Char) : Bool :=
  c = ' ' || c = '\t' || c = '\n' || c = '\x0b' || c = '\x0c' || c = '\r'
    || c = '\x85' || c = '\xa0'

/-- Go `strings.TrimSpace`: remove leading and trailing whitespace. -/
def trimSpace (s : Str) : Str :=
  ((s.dropWhile goIsSpace).reverse.dropWhile goIsSpace).reverse

/-- Parse a nonempty all-digit string as a natural number
(helper for `atoi`). -/
def parseDigits : Str → Option Nat
  | [] => none
  | [c] => if c.isDigit then some (c.toNat - '0'.toNat) else none
  | c :: rest =>
    if c.isDigit then
      match parseDigits rest with
      | some n => some ((c.toNat - '0'.toNat) * 10 ^ rest.length + n)
      | none => none
    else none

/-- Go `strconv.Atoi`: optional sign followed by a nonempty digit string;
anything else is an error (`none`). -/
def atoi (s : Str) : Option Int :=
  match s with
  | '+' :: rest => (parseDigits rest).map (fun n => (n : Int))
  | '-' :: rest => (parseDigits rest).map (fun n => -(n : Int))
  | _ => (parseDigits s).map (fun n => (n : Int))

/-- One row of the table, processed as in the body of the `Each` callback
of `parseCharacterGridFromDoc` (for a non-header row): if the row has
fewer than three cells it is skipped (`none`); otherwise cells 0 and 2
are whitespace-trimmed and parsed with `Atoi` as the x and y coordinate
and cell 1, whitespace-trimmed, is the payload; a failed parse skips the
row. -/
def parseRowCell (row : List Str) : Option Cell :=
  if row.length < 3 then none
  else
    match atoi (trimSpace (row.getD 0 [])), atoi (trimSpace (row.getD 2 [])) with
    | some x, some y => some ⟨x, y, trimSpace (row.getD 1 [])⟩
    | _, _ => none

/-- The indexed iteration of `doc.Find("table").First().Find("tr").Each`:
the row at index 0 (the header) is skipped, every other row goes through
`parseRowCell` and the successfully parsed cells are accumulated in
order. -/
def parseRows : Nat → List (List Str) → List Cell
  | _, [] => []
  | i, r :: rs =>
    if i = 0 then parseRows (i + 1) rs
    else
      match parseRowCell r with
      | none => parseRows (i + 1) rs
      | some c => c :: parseRows (i + 1) rs

/-- The function `parseCharacterGridFromDoc`: operate on the first table of the
document (no table at all yields no cells) and extract its rows. -/
def parseCharacterGridFromDoc (doc : List (List (List Str))) : List Cell :=
  match doc with
  | [] => []
  | t :: _ => parseRows 0 t

/-- The body of the `maxX, maxY` loop at the top of
`renderGridFromCells`: each cell raises the running maxima when its
coordinate is strictly larger. -/
def maxStep (m : Int × Int) (c : Cell) : Int × Int :=
  (if c.X > m.1 then c.X else m.1, if c.Y > m.2 then c.Y else m.2)

/-- The `maxX, maxY` computation at the top of `renderGridFromCells`:
both start at `0` and the loop applies `maxStep` for every cell. -/
def maxXY (cells : List Cell) : Int × Int :=
  cells.foldl maxStep (0, 0)

/-- The blank grid: `maxY+1` rows of `maxX+1` cells, each holding the
one-space string `" "`. -/
def mkGrid (rows cols : Nat) : List (List Str) :=
  List.replicate rows (List.replicate cols [' '])

/-- One grid write `grid[c.Y][c.X] = c.C`.  An out-of-range index is a
Go runtime panic, modelled as `none`. -/
def writeCell (grid : List (List Str)) (c : Cell) : Option (List (List Str)) :=
  if 0 ≤ c.Y ∧ c.Y < (grid.length : Int) then
    if 0 ≤ c.X ∧ c.X < ((grid.getD c.Y.toNat []).length : Int) then
      some (grid.set c.Y.toNat ((grid.getD c.Y.toNat []).set c.X.toNat c.C))
    else none
  else none

/-- The `for _, c := range cells` write loop. -/
def writeAll : List (List Str) → List Cell → Option (List (List Str))
  | g, [] => some g
  | g, c :: cs =>
    match writeCell g c with
    | none => none
    | some g' => writeAll g' cs

/-- Go `strings.TrimRight(line, " ")`: drop trailing space characters. -/
def trimRight (s : Str) : Str :=
  (s.reverse.dropWhile (· = ' ')).reverse

/-- Go `strings.Join(grid[i], "")`. -/
def joinRow (row : List Str) : Str :=
  row.flatten

/-- The output loop `for i := maxY; i >= 0; i--`: the line printed for
row `i` is row `i` joined and right-trimmed; rows are emitted from `i`
down to `0`. -/
def renderLines (grid : List (List Str)) : Nat → List Str
  | 0 => [trimRight (joinRow (grid.getD 0 []))]
  | i + 1 => trimRight (joinRow (grid.getD (i + 1) [])) :: renderLines grid i

/-- The function `renderGridFromCells`: compute `maxX`/`maxY`, allocate the blank
grid, perform every write (a panic yields `none`), and produce the lines
printed to stdout from row `maxY` down to row `0`. -/
def renderGridFromCells (cells : List Cell) : Option (List Str) :=
  let mX := (maxXY cells).1
  let mY := (maxXY cells).2
  let grid := mkGrid (mY.toNat + 1) (mX.toNat + 1)
  match writeAll grid cells with
  | none => none
  | some g => some (renderLines g mY.toNat)

/-- The HTTP status check in `main`: `if resp.StatusCode != 200` is a
fatal error; returns `true` exactly when the program terminates. -/
def statusFatal (code : Nat) : Bool :=
  code ≠ 200

/-- The tail of `main` after the document has been fetched and parsed:
extract the cells, terminate fatally when none were found
(`log.Fatal("No valid table data found.")`), otherwise render. -/
def mainAfterParse (doc : List (List (List Str))) : Except String (List Str) :=
  if (parseCharacterGridFromDoc doc).length = 0 then
    Except.error "No valid table data found."
  else
    match renderGridFromCells (parseCharacterGridFromDoc doc) with
    | none => Except.error "panic: runtime error: index out of range"
    | some lines => Except.ok lines

/-- The grid keeps `R` rows of `C` cells throughout the write loop. -/
def GridDims (R C : Nat) (g : List (List Str)) : Prop :=
  g.length = R ∧ ∀ row ∈ g, row.length = C

/-- Every grid entry is a string of length at most one. -/
def EntriesLe1 (g : List (List Str)) : Prop :=
  ∀ row ∈ g, ∀ e ∈ row, e.length ≤ 1

/-- The Boolean test "cell `c` targets position `(x, y)`". -/
def atPos (x y : Nat) (c : Cell) : Bool :=
  c.X == (x : Int) && c.Y == (y : Int)

/-! ### Properties of the `maxX`/`maxY` loop -/

lemma maxStep_le (m : Int × Int) (c : Cell) :
    m.1 ≤ (maxStep m c).1 ∧ m.2 ≤ (maxStep m c).2 := by
  unfold maxStep
  constructor <;> dsimp only <;> split <;> omega

lemma self_le_maxStep (m : Int × Int) (c : Cell) :
    c.X ≤ (maxStep m c).1 ∧ c.Y ≤ (maxStep m c).2 := by
  unfold maxStep
  constructor <;> dsimp only <;> split <;> omega

lemma init_le_foldl_maxStep (cells : List Cell) (m : Int × Int) :
    m.1 ≤ (cells.foldl maxStep m).1 ∧ m.2 ≤ (cells.foldl maxStep m).2 := by
  induction cells generalizing m with
  | nil => exact ⟨le_refl _, le_refl _⟩
  | cons c cs ih =>
    have h1 := maxStep_le m c
    have h2 := ih (maxStep m c)
    exact ⟨le_trans h1.1 h2.1, le_trans h1.2 h2.2⟩

lemma maxXY_nonneg (cells : List Cell) :
    0 ≤ (maxXY cells).1 ∧ 0 ≤ (maxXY cells).2 :=
  init_le_foldl_maxStep cells (0, 0)

lemma le_foldl_maxStep_of_mem {cells : List Cell} {c : Cell}
    (hc : c ∈ cells) (m : Int × Int) :
    c.X ≤ (cells.foldl maxStep m).1 ∧ c.Y ≤ (cells.foldl maxStep m).2 := by
  induction cells generalizing m with
  | nil => cases hc
  | cons d ds ih =>
    rcases List.mem_cons.mp hc with h | h
    · subst h
      have h1 := self_le_maxStep m c
      have h2 := init_le_foldl_maxStep ds (maxStep m c)
      exact ⟨le_trans h1.1 h2.1, le_trans h1.2 h2.2⟩
    · rw [List.foldl_cons]
      exact ih h (maxStep m d)

lemma le_maxXY_of_mem {cells : List Cell} {c : Cell} (hc : c ∈ cells) :
    c.X ≤ (maxXY cells).1 ∧ c.Y ≤ (maxXY cells).2 :=
  le_foldl_maxStep_of_mem hc (0, 0)

lemma foldl_maxStep_snd_attained (cells : List Cell) (m : Int × Int) :
    (cells.foldl maxStep m).2 = m.2 ∨
      ∃ c ∈ cells, (cells.foldl maxStep m).2 = c.Y := by
  induction cells generalizing m with
  | nil => exact Or.inl rfl
  | cons d ds ih =>
    rw [List.foldl_cons]
    rcases ih (maxStep m d) with h | ⟨c, hc, h⟩
    · by_cases hd : d.Y > m.2
      · refine Or.inr ⟨d, List.mem_cons_self d ds, ?_⟩
        rw [h]
        unfold maxStep
        simp [hd]
      · refine Or.inl ?_
        rw [h]
        unfold maxStep
        simp [hd]
    · exact Or.inr ⟨c, List.mem_cons_of_mem d hc, h⟩

/-- For a non-empty cell list with non-negative y coordinates, `maxY` is
attained by some cell and dominates every cell. -/
lemma maxXY_snd_attained {cells : List Cell} (hne : cells ≠ [])
    (hnn : ∀ c ∈ cells, 0 ≤ c.Y) :
    ∃ c ∈ cells, c.Y = (maxXY cells).2 := by
  rcases foldl_maxStep_snd_attained cells (0, 0) with h | ⟨c, hc, h⟩
  · rcases List.exists_mem_of_ne_nil cells hne with ⟨c, hc⟩
    refine ⟨c, hc, le_antisymm (le_maxXY_of_mem hc).2 ?_⟩
    rw [maxXY, h]
    exact hnn c hc
  · exact ⟨c, hc, (by rw [maxXY, h])⟩

/-! ### Grid dimension invariants -/

lemma mkGrid_dims (R C : Nat) : GridDims R C (mkGrid R C) := by
  refine ⟨List.length_replicate _ _, ?_⟩
  intro row hrow
  rw [List.eq_of_mem_replicate hrow]
  exact List.length_replicate _ _

lemma getD_mem_of_lt {g : List (List Str)} {i : Nat} (h : i < g.length) :
    g.getD i [] ∈ g := by
  rw [List.getD_eq_getElem?_getD, List.getElem?_eq_getElem h]
  exact List.getElem_mem h

lemma writeCell_some_iff {g : List (List Str)} {c : Cell} :
    (∃ g', writeCell g c = some g') ↔
      (0 ≤ c.Y ∧ c.Y < (g.length : Int) ∧ 0 ≤ c.X ∧
        c.X < ((g.getD c.Y.toNat []).length : Int)) := by
  unfold writeCell
  constructor
  · rintro ⟨g', hg'⟩
    split at hg'
    · split at hg'
      · omega
      · cases hg'
    · cases hg'
  · rintro ⟨h1, h2, h3, h4⟩
    rw [if_pos ⟨h1, h2⟩, if_pos ⟨h3, h4⟩]
    exact ⟨_, rfl⟩

lemma writeCell_eq_of_some {g g' : List (List Str)} {c : Cell}
    (h : writeCell g c = some g') :
    g' = g.set c.Y.toNat ((g.getD c.Y.toNat []).set c.X.toNat c.C) := by
  unfold writeCell at h
  split at h
  · split at h
    · exact (Option.some.injEq _ _ ▸ h).symm
    · cases h
  · cases h

lemma writeCell_dims {R C : Nat} {g g' : List (List Str)} {c : Cell}
    (hd : GridDims R C g) (h : writeCell g c = some g') :
    GridDims R C g' := by
  obtain ⟨hb1, hb2, _, _⟩ := writeCell_some_iff.mp ⟨g', h⟩
  rw [writeCell_eq_of_some h]
  refine ⟨by rw [List.length_set]; exact hd.1, ?_⟩
  intro row hrow
  rcases List.mem_or_eq_of_mem_set hrow with hmem | heq
  · exact hd.2 row hmem
  · rw [heq, List.length_set]
    exact hd.2 _ (getD_mem_of_lt (by omega))

lemma writeCell_succeeds {R C : Nat} {g : List (List Str)} {c : Cell}
    (hd : GridDims R C g)
    (hY : 0 ≤ c.Y) (hYlt : c.Y < (R : Int))
    (hX : 0 ≤ c.X) (hXlt : c.X < (C : Int)) :
    ∃ g', writeCell g c = some g' := by
  have hlen : g.length = R := hd.1
  have hrow : g.getD c.Y.toNat [] ∈ g := getD_mem_of_lt (by omega)
  refine writeCell_some_iff.mpr ⟨hY, by omega, hX, ?_⟩
  rw [hd.2 _ hrow]
  exact hXlt

lemma writeAll_some {R C : Nat} {cells : List Cell} :
    ∀ {g : List (List Str)}, GridDims R C g →
      (∀ c ∈ cells, 0 ≤ c.X ∧ c.X < (C : Int) ∧ 0 ≤ c.Y ∧ c.Y < (R : Int)) →
      ∃ g', writeAll g cells = some g' ∧ GridDims R C g' := by
  induction cells with
  | nil => exact fun hd _ => ⟨_, rfl, hd⟩
  | cons c cs ih =>
    intro g hd hb
    obtain ⟨hX, hXlt, hY, hYlt⟩ := hb c (List.mem_cons_self c cs)
    obtain ⟨g1, hg1⟩ := writeCell_succeeds hd hY hYlt hX hXlt
    obtain ⟨g', hg', hd'⟩ :=
      ih (writeCell_dims hd hg1) (fun d hdmem => hb d (List.mem_cons_of_mem c hdmem))
    exact ⟨g', by rw [writeAll, hg1]; exact hg', hd'⟩

/-! ### Payload-length invariant: every grid entry stays a string of
length at most one when every written payload has length at most one. -/

lemma mkGrid_entries (R C : Nat) : EntriesLe1 (mkGrid R C) := by
  intro row hrow e he
  rw [List.eq_of_mem_replicate hrow] at he
  rw [List.eq_of_mem_replicate he]
  decide

lemma writeCell_entries {g g' : List (List Str)} {c : Cell}
    (hE : EntriesLe1 g) (hc : c.C.length ≤ 1)
    (h : writeCell g c = some g') : EntriesLe1 g' := by
  rw [writeCell_eq_of_some h]
  intro row hrow e he
  rcases List.mem_or_eq_of_mem_set hrow with hmem | heq
  · exact hE row hmem e he
  · subst heq
    rcases List.mem_or_eq_of_mem_set he with hmem | heq
    · obtain ⟨h1, h2, _, _⟩ := writeCell_some_iff.mp ⟨g', h⟩
      exact hE _ (getD_mem_of_lt (by omega)) e hmem
    · subst heq
      exact hc

lemma writeAll_entries {cells : List Cell} :
    ∀ {g g' : List (List Str)}, EntriesLe1 g →
      (∀ c ∈ cells, c.C.length ≤ 1) →
      writeAll g cells = some g' → EntriesLe1 g' := by
  induction cells with
  | nil =>
    intro g g' hE _ hw
    cases hw
    exact hE
  | cons c cs ih =>
    intro g g' hE hcs hw
    rw [writeAll] at hw
    cases hg1 : writeCell g c with
    | none => rw [hg1] at hw; cases hw
    | some g1 =>
      rw [hg1] at hw
      exact ih (writeCell_entries hE (hcs c (List.mem_cons_self c cs)) hg1)
        (fun d hd => hcs d (List.mem_cons_of_mem c hd)) hw

/-! ### Content of the grid after the write loop -/

lemma writeCell_getD {g g' : List (List Str)} {c : Cell}
    (h : writeCell g c = some g') (i j : Nat) :
    (g'.getD i []).getD j [] =
      if i = c.Y.toNat ∧ j = c.X.toNat then c.C
      else (g.getD i []).getD j [] := by
  obtain ⟨h1, h2, h3, h4⟩ := writeCell_some_iff.mp ⟨g', h⟩
  have hYlen : c.Y.toNat < g.length := by omega
  have hXlen : c.X.toNat < (g.getD c.Y.toNat []).length := by omega
  rw [writeCell_eq_of_some h]
  simp only [List.getD_eq_getElem?_getD]
  simp only [List.getD_eq_getElem?_getD] at hXlen
  by_cases hi : i = c.Y.toNat
  · subst hi
    rw [List.getElem?_set_self hYlen, Option.getD_some]
    by_cases hj : j = c.X.toNat
    · subst hj
      rw [List.getElem?_set_self hXlen, Option.getD_some, if_pos ⟨rfl, rfl⟩]
    · rw [List.getElem?_set_ne (Ne.symm hj), if_neg (by tauto)]
  · rw [List.getElem?_set_ne (Ne.symm hi), if_neg (by tauto)]

lemma atPos_iff {x y : Nat} {c : Cell} :
    atPos x y c = true ↔ c.X = (x : Int) ∧ c.Y = (y : Int) := by
  simp [atPos]

/-- After the write loop, the grid entry at `(x, y)` is the payload of
the last cell in the list targeting `(x, y)` (the first such cell of the
reversed list), and is unchanged from the initial grid when no cell
targets it. -/
lemma writeAll_getD {cells : List Cell} :
    ∀ {g g' : List (List Str)}, writeAll g cells = some g' →
      ∀ x y : Nat,
        (g'.getD y []).getD x [] =
          match cells.reverse.find? (atPos x y) with
          | some c => c.C
          | none => (g.getD y []).getD x [] := by
  induction cells with
  | nil =>
    intro g g' hw x y
    cases hw
    rfl
  | cons c cs ih =>
    intro g g' hw x y
    rw [writeAll] at hw
    cases hg1 : writeCell g c with
    | none => rw [hg1] at hw; cases hw
    | some g1 =>
      rw [hg1] at hw
      have hrec := ih hw x y
      rw [List.reverse_cons, List.find?_append]
      cases hfind : cs.reverse.find? (atPos x y) with
      | some d =>
        rw [hfind] at hrec
        simpa [hfind] using hrec
      | none =>
        rw [hfind] at hrec
        have hrec' : (g'.getD y []).getD x [] = (g1.getD y []).getD x [] := by
          rw [hrec]
        rw [Option.none_or, hrec']
        obtain ⟨h1, h2, h3, h4⟩ := writeCell_some_iff.mp ⟨g1, hg1⟩
        cases hp : atPos x y c with
        | true =>
          obtain ⟨hx, hy⟩ := atPos_iff.mp hp
          have hx' : c.X.toNat = x := by omega
          have hy' : c.Y.toNat = y := by omega
          have hfc : List.find? (atPos x y) [c] = some c := by
            simp [List.find?, hp]
          rw [hfc]
          show (g1.getD y []).getD x [] = c.C
          rw [writeCell_getD hg1 y x, if_pos ⟨hy'.symm, hx'.symm⟩]
        | false =>
          have hfc : List.find? (atPos x y) [c] = none := by
            simp [List.find?, hp]
          rw [hfc]
          show (g1.getD y []).getD x [] = (g.getD y []).getD x []
          rw [writeCell_getD hg1 y x]
          refine if_neg ?_
          rintro ⟨hy', hx'⟩
          have hcontra := (@atPos_iff x y c).mpr ⟨by omega, by omega⟩
          rw [hp] at hcontra
          cases hcontra

/-! ### Properties of the output loop -/

lemma renderLines_length (g : List (List Str)) (n : Nat) :
    (renderLines g n).length = n + 1 := by
  induction n with
  | zero => rfl
  | succ k ih => simp [renderLines, ih]

lemma renderLines_getElem? (g : List (List Str)) {n i : Nat} (h : i ≤ n) :
    (renderLines g n)[i]? = some (trimRight (joinRow (g.getD (n - i) []))) := by
  induction n generalizing i with
  | zero =>
    interval_cases i
    simp [renderLines]
  | succ k ih =>
    cases i with
    | zero => simp [renderLines]
    | succ j =>
      have hj : j ≤ k := by omega
      have hs : k + 1 - (j + 1) = k - j := by omega
      simp only [renderLines, List.getElem?_cons_succ, hs]
      exact ih hj

lemma renderLines_mem {g : List (List Str)} {n : Nat} {l : Str}
    (h : l ∈ renderLines g n) :
    ∃ i ≤ n, l = trimRight (joinRow (g.getD i [])) := by
  induction n with
  | zero =>
    rcases List.mem_singleton.mp h with rfl
    exact ⟨0, le_refl 0, rfl⟩
  | succ k ih =>
    rcases List.mem_cons.mp h with rfl | h'
    · exact ⟨k + 1, le_refl _, rfl⟩
    · obtain ⟨i, hi, hl⟩ := ih h'
      exact ⟨i, by omega, hl⟩

lemma trimRight_length_le (s : Str) : (trimRight s).length ≤ s.length := by
  unfold trimRight
  rw [List.length_reverse]
  calc (s.reverse.dropWhile (· = ' ')).length
      ≤ s.reverse.length := (List.dropWhile_sublist _).length_le
    _ = s.length := List.length_reverse s

lemma flatten_length_le {row : List Str} (h : ∀ e ∈ row, e.length ≤ 1) :
    row.flatten.length ≤ row.length := by
  induction row with
  | nil => simp
  | cons e es ih =>
    rw [List.flatten_cons, List.length_append, List.length_cons]
    have h1 := h e (List.mem_cons_self e es)
    have h2 := ih (fun d hd => h d (List.mem_cons_of_mem e hd))
    omega

/-- When the first `x` cells of a row are one-character strings, joining
them contributes exactly `x` display columns, so the cell at index `x`
starts at display column `x`. -/
lemma flatten_take_length {row : List Str} {x : Nat} (hx : x ≤ row.length)
    (h : ∀ j, j < x → (row.getD j []).length = 1) :
    ((row.take x).flatten).length = x := by
  induction row generalizing x with
  | nil =>
    simp only [List.length_nil, Nat.le_zero] at hx
    subst hx
    simp
  | cons e es ih =>
    cases x with
    | zero => simp
    | succ k =>
      have he : e.length = 1 := by
        have h0 := h 0 (Nat.succ_pos k)
        simpa using h0
      have hk : ((es.take k).flatten).length = k := by
        refine ih (by simpa using hx) ?_
        intro j hj
        have hj1 := h (j + 1) (by omega)
        simpa using hj1
      rw [List.take_succ_cons, List.flatten_cons, List.length_append, he, hk]
      omega

lemma mkGrid_getD {R C x y : Nat} (hy : y < R) (hx : x < C) :
    (((mkGrid R C).getD y []).getD x []) = [' '] := by
  unfold mkGrid
  simp [List.getD_eq_getElem?_getD, List.getElem?_replicate, hy, hx]

/-- Unfolding `renderGridFromCells` when every write succeeded. -/
lemma renderGridFromCells_eq_some {cells : List Cell} {g : List (List Str)}
    (hw : writeAll
        (mkGrid ((maxXY cells).2.toNat + 1) ((maxXY cells).1.toNat + 1))
        cells = some g) :
    renderGridFromCells cells = some (renderLines g (maxXY cells).2.toNat) := by
  show (match writeAll
        (mkGrid ((maxXY cells).2.toNat + 1) ((maxXY cells).1.toNat + 1))
        cells with
      | none => none
      | some g => some (renderLines g (maxXY cells).2.toNat)) =
    some (renderLines g (maxXY cells).2.toNat)
  rw [hw]

/-! ### Properties of the extractor -/

lemma parseRows_succ (rows : List (List Str)) :
    ∀ i : Nat, parseRows (i + 1) rows = rows.filterMap parseRowCell := by
  induction rows with
  | nil => intro i; rfl
  | cons r rs ih =>
    intro i
    rw [parseRows, if_neg (Nat.succ_ne_zero i), List.filterMap_cons]
    cases h : parseRowCell r with
    | none =>
      show parseRows (i + 1 + 1) rs = List.filterMap parseRowCell rs
      exact ih (i + 1)
    | some c =>
      show c :: parseRows (i + 1 + 1) rs = c :: List.filterMap parseRowCell rs
      rw [ih (i + 1)]

/-- The header row (index 0) is skipped; every later row is processed
uniformly, independent of its index. -/
lemma parseRows_header (r : List Str) (rows : List (List Str)) :
    parseRows 0 (r :: rows) = rows.filterMap parseRowCell := by
  rw [parseRows, if_pos rfl]
  exact parseRows_succ rows 0

/-- Bounds needed by the write loop, derived from non-negative
coordinates and the computed maxima. -/
lemma bounds_of_nonneg {cells : List Cell}
    (hnn : ∀ c ∈ cells, 0 ≤ c.X ∧ 0 ≤ c.Y) :
    ∀ c ∈ cells,
      0 ≤ c.X ∧ c.X < (((maxXY cells).1.toNat + 1 : Nat) : Int) ∧
      0 ≤ c.Y ∧ c.Y < (((maxXY cells).2.toNat + 1 : Nat) : Int) := by
  intro c hc
  have h1 := le_maxXY_of_mem hc
  have h2 := hnn c hc
  have h3 := maxXY_nonneg cells
  exact ⟨h2.1, by omega, h2.2, by omega⟩

/-! ### The claims -/

/-- Claim C1, counterexample: the record list `[(x=0, y=0, c="AB")]` is
non-empty, yet the single rendered line `"AB"` has length `2`, which
exceeds `maxX + 1 = 1`; the claimed per-line length bound fails because
grid entries are whole strings, not single characters. -/
theorem C1_length_bound_counterexample :
    renderGridFromCells [⟨0, 0, ['A', 'B']⟩] = some [['A', 'B']] ∧
    (maxXY [⟨0, 0, ['A', 'B']⟩]).1 = 0 ∧
    (maxXY [⟨0, 0, ['A', 'B']⟩]).2 = 0 ∧
    ¬ ((['A', 'B'] : Str).length ≤ 0 + 1) := by
  refine ⟨by decide, by decide, by decide, by decide⟩

/-- Claim C1, amended: for every non-empty record list whose coordinates
are non-negative and whose payloads are at most one character long,
`renderGridFromCells` prints exactly `maxY + 1` lines, and each printed
line (already right-trimmed) has length at most `maxX + 1`. -/
theorem C1_line_count_and_length_bound (cells : List Cell)
    (hne : cells ≠ [])
    (h : ∀ c ∈ cells, 0 ≤ c.X ∧ 0 ≤ c.Y ∧ c.C.length ≤ 1) :
    ∃ lines, renderGridFromCells cells = some lines ∧
      lines.length = (maxXY cells).2.toNat + 1 ∧
      ∀ l ∈ lines, l.length ≤ (maxXY cells).1.toNat + 1 := by
  have hb := bounds_of_nonneg (fun c hc => ⟨(h c hc).1, (h c hc).2.1⟩)
  obtain ⟨g, hw, hd⟩ := writeAll_some (mkGrid_dims
    ((maxXY cells).2.toNat + 1) ((maxXY cells).1.toNat + 1)) hb
  have hE := writeAll_entries (mkGrid_entries
    ((maxXY cells).2.toNat + 1) ((maxXY cells).1.toNat + 1))
    (fun c hc => (h c hc).2.2) hw
  refine ⟨renderLines g (maxXY cells).2.toNat,
    renderGridFromCells_eq_some hw, renderLines_length _ _, ?_⟩
  intro l hl
  obtain ⟨i, hi, rfl⟩ := renderLines_mem hl
  have hrow : g.getD i [] ∈ g := getD_mem_of_lt (by rw [hd.1]; omega)
  calc (trimRight (joinRow (g.getD i []))).length
      ≤ (joinRow (g.getD i [])).length := trimRight_length_le _
    _ ≤ (g.getD i []).length := flatten_length_le (hE _ hrow)
    _ = (maxXY cells).1.toNat + 1 := hd.2 _ hrow

/-- Witness for the amended C1 at the concrete record list
`[(x=0, y=1, c="A")]`. -/
theorem C1_line_count_and_length_bound_witness :
    ∃ lines, renderGridFromCells [⟨0, 1, ['A']⟩] = some lines ∧
      lines.length = (maxXY [⟨0, 1, ['A']⟩]).2.toNat + 1 ∧
      ∀ l ∈ lines, l.length ≤ (maxXY [⟨0, 1, ['A']⟩]).1.toNat + 1 :=
  C1_line_count_and_length_bound [⟨0, 1, ['A']⟩] (by decide) (by decide)

/-- Claim C2: on the record list `[(0, "A", 1), (2, "B", 0)]` the
renderer outputs exactly the two lines `"A"` and `"  B"`. -/
theorem C2_concrete_two_line_render :
    renderGridFromCells [⟨0, 1, ['A']⟩, ⟨2, 0, ['B']⟩] =
      some [['A'], [' ', ' ', 'B']] := by
  decide

/-- Claim C3: for a non-empty record list (with the non-negative
coordinates the data model prescribes) the renderer succeeds, prints
`maxY + 1` lines, and the line at output index `i` is grid row
`maxY - i`: rows appear in strictly decreasing row order, the first
printed line is the row of the largest record y (which is `maxY`,
attained by some record and dominating all records), and the last
printed line (index `maxY`) is the row for y = 0. -/
theorem C3_rows_printed_top_down (cells : List Cell) (hne : cells ≠ [])
    (hnn : ∀ c ∈ cells, 0 ≤ c.X ∧ 0 ≤ c.Y) :
    ∃ g lines,
      writeAll (mkGrid ((maxXY cells).2.toNat + 1) ((maxXY cells).1.toNat + 1))
        cells = some g ∧
      renderGridFromCells cells = some lines ∧
      lines.length = (maxXY cells).2.toNat + 1 ∧
      (∀ i ≤ (maxXY cells).2.toNat,
        lines[i]? =
          some (trimRight (joinRow (g.getD ((maxXY cells).2.toNat - i) [])))) ∧
      (∃ c ∈ cells, c.Y = (maxXY cells).2 ∧
        ∀ d ∈ cells, d.Y ≤ (maxXY cells).2) := by
  have hb := bounds_of_nonneg hnn
  obtain ⟨g, hw, hd⟩ := writeAll_some (mkGrid_dims
    ((maxXY cells).2.toNat + 1) ((maxXY cells).1.toNat + 1)) hb
  refine ⟨g, renderLines g (maxXY cells).2.toNat, hw,
    renderGridFromCells_eq_some hw, renderLines_length _ _, ?_, ?_⟩
  · intro i hi
    exact renderLines_getElem? g hi
  · obtain ⟨c, hc, hcY⟩ :=
      maxXY_snd_attained hne (fun c hc => (hnn c hc).2)
    exact ⟨c, hc, hcY, fun d hd' => (le_maxXY_of_mem hd').2⟩

/-- Witness for C3 at the concrete record list
`[(0, "A", 1), (2, "B", 0)]`. -/
theorem C3_rows_printed_top_down_witness :
    ∃ g lines,
      writeAll (mkGrid ((maxXY [⟨0, 1, ['A']⟩, ⟨2, 0, ['B']⟩]).2.toNat + 1)
          ((maxXY [⟨0, 1, ['A']⟩, ⟨2, 0, ['B']⟩]).1.toNat + 1))
        [⟨0, 1, ['A']⟩, ⟨2, 0, ['B']⟩] = some g ∧
      renderGridFromCells [⟨0, 1, ['A']⟩, ⟨2, 0, ['B']⟩] = some lines ∧
      lines.length = (maxXY [⟨0, 1, ['A']⟩, ⟨2, 0, ['B']⟩]).2.toNat + 1 ∧
      (∀ i ≤ (maxXY [⟨0, 1, ['A']⟩, ⟨2, 0, ['B']⟩]).2.toNat,
        lines[i]? =
          some (trimRight (joinRow
            (g.getD ((maxXY [⟨0, 1, ['A']⟩, ⟨2, 0, ['B']⟩]).2.toNat - i) [])))) ∧
      (∃ c ∈ [⟨0, 1, ['A']⟩, ⟨2, 0, ['B']⟩],
        Cell.Y c = (maxXY [⟨0, 1, ['A']⟩, ⟨2, 0, ['B']⟩]).2 ∧
        ∀ d ∈ [⟨0, 1, ['A']⟩, ⟨2, 0, ['B']⟩],
          Cell.Y d ≤ (maxXY [⟨0, 1, ['A']⟩, ⟨2, 0, ['B']⟩]).2) :=
  C3_rows_printed_top_down [⟨0, 1, ['A']⟩, ⟨2, 0, ['B']⟩] (by decide) (by decide)

/-- Claim C4: after the write loop, the grid entry at any in-range
position `(x, y)` is the payload of the *last* record in extraction
order targeting `(x, y)` (the first record of the reversed list), and
the blank `" "` when no record targets it; earlier records at that
coordinate cannot influence the entry. -/
theorem C4_last_write_wins (cells : List Cell) (x y : Nat)
    (g : List (List Str))
    (hw : writeAll (mkGrid ((maxXY cells).2.toNat + 1) ((maxXY cells).1.toNat + 1))
        cells = some g)
    (hx : x < (maxXY cells).1.toNat + 1) (hy : y < (maxXY cells).2.toNat + 1) :
    (g.getD y []).getD x [] =
      match cells.reverse.find? (atPos x y) with
      | some c => c.C
      | none => [' '] := by
  rw [writeAll_getD hw x y]
  cases cells.reverse.find? (atPos x y) with
  | some c => rfl
  | none =>
    show ((mkGrid ((maxXY cells).2.toNat + 1)
      ((maxXY cells).1.toNat + 1)).getD y []).getD x [] = [' ']
    exact mkGrid_getD hy hx

/-- Witness for C4: records `[(0,0,"A"), (0,0,"B")]` collide at (0,0);
the final grid holds the later payload `"B"`. -/
theorem C4_last_write_wins_witness :
    (([[['B']]] : List (List Str)).getD 0 []).getD 0 [] =
      match ([⟨0, 0, ['A']⟩, ⟨0, 0, ['B']⟩] : List Cell).reverse.find? (atPos 0 0) with
      | some c => c.C
      | none => [' '] :=
  C4_last_write_wins [⟨0, 0, ['A']⟩, ⟨0, 0, ['B']⟩] 0 0 [[['B']]]
    (by decide) (by decide) (by decide)

/-- Claim C5: a table row after the header with fewer than three cells,
or whose x or y cell does not parse as an integer, contributes no record
and does not stop the extraction: the result is the same as if the row
were absent. -/
theorem C5_malformed_row_skipped (p s : List (List Str)) (bad : List Str)
    (hp : p ≠ [])
    (hbad : bad.length < 3 ∨ atoi (trimSpace (bad.getD 0 [])) = none ∨
      atoi (trimSpace (bad.getD 2 [])) = none) :
    parseCharacterGridFromDoc [p ++ bad :: s] =
      parseCharacterGridFromDoc [p ++ s] := by
  have hnone : parseRowCell bad = none := by
    by_cases hlen : bad.length < 3
    · unfold parseRowCell
      rw [if_pos hlen]
    · unfold parseRowCell
      rw [if_neg hlen]
      rcases hbad with h | h | h
      · exact absurd h hlen
      · rw [h]
      · rw [h]
        cases atoi (trimSpace (bad.getD 0 [])) <;> rfl
  obtain ⟨r, p', rfl⟩ := List.exists_cons_of_ne_nil hp
  show parseRows 0 ((r :: p') ++ bad :: s) = parseRows 0 ((r :: p') ++ s)
  rw [List.cons_append, List.cons_append, parseRows_header, parseRows_header,
    List.filterMap_append, List.filterMap_append, List.filterMap_cons, hnone]

/-- Witness for C5: a header, then a row whose x cell is `"a"`
(unparseable), then a good row; the bad row contributes nothing. -/
theorem C5_malformed_row_skipped_witness :
    parseCharacterGridFromDoc [[[], [['a'], ['b'], ['c']], [['1'], ['Z'], ['2']]]] =
      parseCharacterGridFromDoc [[[], [['1'], ['Z'], ['2']]]] :=
  C5_malformed_row_skipped [[]] [[['1'], ['Z'], ['2']]] [['a'], ['b'], ['c']]
    (by decide) (by decide)

/-- Claim C6: the extractor reads only the first table of the document,
skips the row at index 0 (the header) and processes every later row
uniformly, rejects rows with fewer than three cells, and for rows with
at least three cells maps cell 0 to the parsed x coordinate, cell 1 to
the whitespace-trimmed payload, and cell 2 to the parsed y coordinate,
trimming both coordinate cells before parsing. -/
theorem C6_extraction_shape :
    (∀ t ts, parseCharacterGridFromDoc (t :: ts) = parseRows 0 t) ∧
    parseCharacterGridFromDoc [] = [] ∧
    (∀ r rows, parseRows 0 (r :: rows) = rows.filterMap parseRowCell) ∧
    (∀ row : List Str, row.length < 3 → parseRowCell row = none) ∧
    (∀ row : List Str, 3 ≤ row.length → parseRowCell row =
      match atoi (trimSpace (row.getD 0 [])), atoi (trimSpace (row.getD 2 [])) with
      | some x, some y => some ⟨x, y, trimSpace (row.getD 1 [])⟩
      | _, _ => none) := by
  refine ⟨fun t ts => rfl, rfl, fun r rows => parseRows_header r rows, ?_, ?_⟩
  · intro row h
    unfold parseRowCell
    rw [if_pos h]
  · intro row h
    unfold parseRowCell
    rw [if_neg (by omega)]

/-- Witness for C6 at the concrete row `["1", "A", "2"]`. -/
theorem C6_extraction_shape_witness :
    parseRowCell [['1'], ['A'], ['2']] =
      match atoi (trimSpace ([['1'], ['A'], ['2']].getD 0 [])),
          atoi (trimSpace ([['1'], ['A'], ['2']].getD 2 [])) with
      | some x, some y => some ⟨x, y, trimSpace ([['1'], ['A'], ['2']].getD 1 [])⟩
      | _, _ => none :=
  C6_extraction_shape.2.2.2.2 [['1'], ['A'], ['2']] (by decide)

/-- Claim C7: when extraction yields no record, `main` terminates with
the fatal "No valid table data found." message (`log.Fatal`, a non-zero
exit) and no grid line is produced. -/
theorem C7_empty_extraction_fatal (doc : List (List (List Str)))
    (h : parseCharacterGridFromDoc doc = []) :
    mainAfterParse doc = Except.error "No valid table data found." := by
  unfold mainAfterParse
  rw [h]
  rfl

/-- Witness for C7 at the table-free document. -/
theorem C7_empty_extraction_fatal_witness :
    mainAfterParse [] = Except.error "No valid table data found." :=
  C7_empty_extraction_fatal [] rfl

/-- Claim C8, counterexample: HTTP status 201 lies in the 2xx success
range, yet the program's check (`resp.StatusCode != 200`) treats it as
fatal — the fetch is not "fatal exactly outside 2xx". -/
theorem C8_non200_fatal_counterexample :
    statusFatal 201 = true ∧ 200 ≤ 201 ∧ 201 < 300 := by
  decide

/-- Claim C8, amended: the fetch is fatal exactly when the status is not
`200`; only a status of exactly 200 proceeds to HTML parsing. -/
theorem C8_fatal_iff_not_200 (code : Nat) :
    statusFatal code = false ↔ code = 200 := by
  simp [statusFatal]

/-- Witness for the amended C8 at status 200. -/
theorem C8_fatal_iff_not_200_witness :
    statusFatal 200 = false :=
  (C8_fatal_iff_not_200 200).mpr rfl

/-- Claim C9: with non-negative coordinates, every record satisfies
`c.X ≤ maxX` and `c.Y ≤ maxY`, so every grid write is in bounds: the
write loop completes without the out-of-range panic (modelled as `none`)
and the renderer produces output. -/
theorem C9_writes_in_bounds (cells : List Cell)
    (hnn : ∀ c ∈ cells, 0 ≤ c.X ∧ 0 ≤ c.Y) :
    (∀ c ∈ cells, c.X ≤ (maxXY cells).1 ∧ c.Y ≤ (maxXY cells).2) ∧
    ∃ g, writeAll (mkGrid ((maxXY cells).2.toNat + 1) ((maxXY cells).1.toNat + 1))
        cells = some g ∧
      renderGridFromCells cells = some (renderLines g (maxXY cells).2.toNat) := by
  refine ⟨fun c hc => le_maxXY_of_mem hc, ?_⟩
  obtain ⟨g, hw, _⟩ := writeAll_some (mkGrid_dims
    ((maxXY cells).2.toNat + 1) ((maxXY cells).1.toNat + 1))
    (bounds_of_nonneg hnn)
  exact ⟨g, hw, renderGridFromCells_eq_some hw⟩

/-- Witness for C9 at the record list `[(1, "A", 1)]`. -/
theorem C9_writes_in_bounds_witness :
    (∀ c ∈ ([⟨1, 1, ['A']⟩] : List Cell),
      Cell.X c ≤ (maxXY [⟨1, 1, ['A']⟩]).1 ∧
      Cell.Y c ≤ (maxXY [⟨1, 1, ['A']⟩]).2) ∧
    ∃ g, writeAll (mkGrid ((maxXY [⟨1, 1, ['A']⟩]).2.toNat + 1)
        ((maxXY [⟨1, 1, ['A']⟩]).1.toNat + 1)) [⟨1, 1, ['A']⟩] = some g ∧
      renderGridFromCells [⟨1, 1, ['A']⟩] =
        some (renderLines g (maxXY [⟨1, 1, ['A']⟩]).2.toNat) :=
  C9_writes_in_bounds [⟨1, 1, ['A']⟩] (by decide)

/-- Claim C10: grid cells hold whole strings.  The extractor accepts a
row whose character cell trims to the empty string, producing an
empty-payload record; the renderer concatenates a row's cell strings
with no width normalization (witnessed by the payload `"AB"` pushing
`"C"` from column 2 to column 3); and a cell's payload starts at display
column `x` exactly when the `x` cells to its left each hold a
one-character string: the joined line splits at column `x`. -/
theorem C10_string_payloads :
    parseRowCell [['1'], [' '], ['2']] = some ⟨1, 2, []⟩ ∧
    renderGridFromCells [⟨0, 0, ['A', 'B']⟩, ⟨2, 0, ['C']⟩] =
      some [['A', 'B', ' ', 'C']] ∧
    (∀ (row : List Str) (x : Nat), x ≤ row.length →
      (∀ j, j < x → (row.getD j []).length = 1) →
      joinRow row = joinRow (row.take x) ++ joinRow (row.drop x) ∧
        (joinRow (row.take x)).length = x) := by
  refine ⟨by decide, by decide, ?_⟩
  intro row x hx h
  constructor
  · rw [joinRow, joinRow, joinRow, ← List.flatten_append,
      List.take_append_drop]
  · rw [joinRow]
    exact flatten_take_length hx h

/-- Witness for C10's split property at `row = ["A", "BC"]`, `x = 1`. -/
theorem C10_string_payloads_witness :
    joinRow [['A'], ['B', 'C']] =
      joinRow ([['A'], ['B', 'C']].take 1) ++ joinRow ([['A'], ['B', 'C']].drop 1) ∧
    (joinRow ([['A'], ['B', 'C']].take 1)).length = 1 :=
  C10_string_payloads.2.2 [['A'], ['B', 'C']] 1 (by decide) (by decide)
